import Mathlib

/-!
# Verification of the red-flag vetting data store and matching layer

Shallow embedding of the repository's CSV ingestion engine
(`src/domain/red-flags/csv-loader.ts`, guarded variant), the name
normalizer (`name-normalizer.ts`), the two matchers
(`irs-revocation-client.ts`, the OFAC SDN client), the flag
aggregation/recommendation functions and the report orchestrator.

Strings are modelled as Lean `String`/`List Char`; JavaScript `Map`s as
association lists with JS `Map.set` semantics (replace-in-place, append
otherwise); asynchronous I/O (network downloads, disk reads/writes) as
explicit oracle parameters and state passing.
-/

namespace RedFlag

/-! ## Character-level primitives modelling the JS string builtins -/

/-- The JavaScript `\s` whitespace class (also the set used by
`String.prototype.trim`): tab, LF, VT, FF, CR, space, NBSP, Ogham space,
the U+2000–U+200A range, LS, PS, NNBSP, MMSP, ideographic space, BOM. -/
def isJsWs (c : Char) : Bool :=
  c.toNat = 9 || c.toNat = 10 || c.toNat = 11 || c.toNat = 12 || c.toNat = 13 ||
  c.toNat = 32 || c.toNat = 160 || c.toNat = 0x1680 ||
  (0x2000 ≤ c.toNat && c.toNat ≤ 0x200a) ||
  c.toNat = 0x2028 || c.toNat = 0x2029 || c.toNat = 0x202f ||
  c.toNat = 0x205f || c.toNat = 0x3000 || c.toNat = 0xfeff

/-- ASCII lowercase letter `a`–`z`. -/
def isLowerAlpha (c : Char) : Bool := 97 ≤ c.toNat && c.toNat ≤ 122

/-- ASCII digit `0`–`9` (the JS `\d` class). -/
def isDigitChar (c : Char) : Bool := 48 ≤ c.toNat && c.toNat ≤ 57

/-- Character kept by the normalizer's punctuation filter `[^a-z0-9\s]`. -/
def isKept (c : Char) : Bool := isLowerAlpha c || isDigitChar c || isJsWs c

/-- Combining diacritical mark, the range `[̀-ͯ]` stripped by the
normalizer after NFD decomposition. -/
def isCombining (c : Char) : Bool := 0x300 ≤ c.toNat && c.toNat ≤ 0x36f

/-- Modelled `String.prototype.toLowerCase`, restricted to the ASCII case
mapping (sufficient here: every non-ASCII letter is removed by the
normalizer's `[^a-z0-9\s]` filter immediately after lowercasing). -/
def jsToLower (c : Char) : Char :=
  if 65 ≤ c.toNat && c.toNat ≤ 90 then Char.ofNat (c.toNat + 32) else c

/-- Combining acute accent U+0301. -/
def combAcute : Char := Char.ofNat 0x301
/-- Combining grave accent U+0300. -/
def combGrave : Char := Char.ofNat 0x300
/-- Combining circumflex U+0302. -/
def combCirc : Char := Char.ofNat 0x302
/-- Combining diaeresis U+0308. -/
def combDia : Char := Char.ofNat 0x308
/-- Combining tilde U+0303. -/
def combTilde : Char := Char.ofNat 0x303
/-- Combining ring above U+030A. -/
def combRing : Char := Char.ofNat 0x30a
/-- Combining cedilla U+0327. -/
def combCedilla : Char := Char.ofNat 0x327

/-- Modelled Unicode NFD decomposition of one character
(`String.prototype.normalize("NFD")`). NFD is the identity on all code
points below U+00C0; for larger code points the model covers the common
precomposed Latin letters (enough for the datasets' accented names) and is
the identity elsewhere. -/
def nfdChar (c : Char) : List Char :=
  if c.toNat < 0xc0 then [c] else
  match c with
  | 'À' => ['A', combGrave] | 'Á' => ['A', combAcute] | 'Â' => ['A', combCirc]
  | 'Ã' => ['A', combTilde] | 'Ä' => ['A', combDia]   | 'Å' => ['A', combRing]
  | 'Ç' => ['C', combCedilla]
  | 'È' => ['E', combGrave] | 'É' => ['E', combAcute] | 'Ê' => ['E', combCirc]
  | 'Ë' => ['E', combDia]
  | 'Ì' => ['I', combGrave] | 'Í' => ['I', combAcute] | 'Î' => ['I', combCirc]
  | 'Ï' => ['I', combDia]   | 'Ñ' => ['N', combTilde]
  | 'Ò' => ['O', combGrave] | 'Ó' => ['O', combAcute] | 'Ô' => ['O', combCirc]
  | 'Õ' => ['O', combTilde] | 'Ö' => ['O', combDia]
  | 'Ù' => ['U', combGrave] | 'Ú' => ['U', combAcute] | 'Û' => ['U', combCirc]
  | 'Ü' => ['U', combDia]   | 'Ý' => ['Y', combAcute]
  | 'à' => ['a', combGrave] | 'á' => ['a', combAcute] | 'â' => ['a', combCirc]
  | 'ã' => ['a', combTilde] | 'ä' => ['a', combDia]   | 'å' => ['a', combRing]
  | 'ç' => ['c', combCedilla]
  | 'è' => ['e', combGrave] | 'é' => ['e', combAcute] | 'ê' => ['e', combCirc]
  | 'ë' => ['e', combDia]
  | 'ì' => ['i', combGrave] | 'í' => ['i', combAcute] | 'î' => ['i', combCirc]
  | 'ï' => ['i', combDia]   | 'ñ' => ['n', combTilde]
  | 'ò' => ['o', combGrave] | 'ó' => ['o', combAcute] | 'ô' => ['o', combCirc]
  | 'õ' => ['o', combTilde] | 'ö' => ['o', combDia]
  | 'ù' => ['u', combGrave] | 'ú' => ['u', combAcute] | 'û' => ['u', combCirc]
  | 'ü' => ['u', combDia]   | 'ý' => ['y', combAcute] | 'ÿ' => ['y', combDia]
  | _ => [c]

/-- NFD decomposition of a character list (concat-map of `nfdChar`). -/
def nfdMap : List Char → List Char
  | [] => []
  | c :: cs => nfdChar c ++ nfdMap cs

/-- `dropWhile isJsWs` from the left and from the right: the JS
`String.prototype.trim`. -/
def jsTrim (l : List Char) : List Char :=
  ((l.dropWhile isJsWs).reverse.dropWhile isJsWs).reverse

/-- The JS `replace(/\s+/g, " ")`: every maximal run of whitespace becomes a
single space. -/
def collapseWs : List Char → List Char
  | [] => []
  | [c] => if isJsWs c then [' '] else [c]
  | a :: b :: rest =>
    if isJsWs a && isJsWs b then collapseWs (b :: rest)
    else (if isJsWs a then ' ' else a) :: collapseWs (b :: rest)

/-- The JS `replace(/^the\s+/, "")` of `name-normalizer.ts` line 59: a
leading `the` followed by at least one whitespace character is removed
together with the whole whitespace run (greedy `\s+`). -/
def stripLeadingThe (l : List Char) : List Char :=
  match l with
  | 't' :: 'h' :: 'e' :: c :: rest =>
    if isJsWs c then (c :: rest).dropWhile isJsWs else l
  | _ => l

/-- The fixed closed suffix list `ORG_SUFFIXES` of `name-normalizer.ts`. -/
def ORG_SUFFIXES : List (List Char) :=
  ["incorporated", "inc", "corporation", "corp", "association", "assoc",
   "assn", "organization", "org", "limited", "ltd", "llc", "llp", "lp",
   "co", "company", "nfp", "pbc"].map String.toList

/-- Does the regex `\s+(suffix)$` match starting exactly here? Since no
suffix word contains whitespace, this holds iff the remainder is a
nonempty whitespace run followed by exactly one suffix word. -/
def sfxMatch (t : List Char) : Bool :=
  match t with
  | [] => false
  | c :: _ => isJsWs c && ORG_SUFFIXES.contains (t.dropWhile isJsWs)

/-- Helper for `stripSuffixOnce`: scan left to right for the leftmost
position where `\s+(suffix)$` matches; the replacement with `""` keeps
exactly the characters before the match. -/
def stripGo : List Char → List Char → List Char
  | acc, [] => acc.reverse
  | acc, c :: cs =>
    if sfxMatch (c :: cs) then acc.reverse else stripGo (c :: acc) cs

/-- One application of `normalized.replace(TRAILING_SUFFIX_PATTERN, "")`. -/
def stripSuffixOnce (l : List Char) : List Char := stripGo [] l

/-- The do/while suffix-stripping loop of `name-normalizer.ts` lines 63–69:
the replacement is applied at most `n` times (`n = 10` in the source),
stopping early at a fixed point. -/
def stripSuffixN : Nat → List Char → List Char
  | 0, l => l
  | n + 1, l =>
    let l' := stripSuffixOnce l
    if l' = l then l else stripSuffixN n l'

/-- The normalization pipeline of `normalizeName` on character lists:
NFD + strip combining marks, lowercase, strip `[^a-z0-9\s]`, strip a
leading `the `, iteratively strip trailing organizational suffixes
(≤ 10 passes), collapse whitespace and trim. -/
def normalizeChars (l : List Char) : List Char :=
  let l1 := (nfdMap l).filter (fun c => !isCombining c)
  let l2 := l1.map jsToLower
  let l3 := l2.filter isKept
  let l4 := stripLeadingThe l3
  let l5 := stripSuffixN 10 l4
  jsTrim (collapseWs l5)

/-- `normalizeName` of `src/domain/red-flags/name-normalizer.ts`. -/
def normalizeName (s : String) : String := (normalizeChars s.toList).asString

/-- `String.prototype.trim` on `String`. -/
def jsTrimStr (s : String) : String := (jsTrim s.toList).asString

/-- The JS `replace(/[-\s]/g, '')`: strip dashes and whitespace, used to
normalize EINs before both storage and lookup. -/
def stripDashWs (s : String) : String :=
  (s.toList.filter (fun c => !(c = '-' || isJsWs c))).asString

/-- The JS regex test `/^\d{9}$/`: exactly nine ASCII digits. -/
def isNineDigits (s : String) : Bool :=
  s.toList.length = 9 && s.toList.all isDigitChar

/-! ## JavaScript `Map`, modelled as an association list

`Map.set` replaces the value in place when the key exists and appends
otherwise; `Map.get` returns the stored value or `undefined`. Maps built
from the empty map via `mapSet` have pairwise-distinct keys, so the list
length is the JS `Map.size`. -/

/-- JS `Map.prototype.set`. -/
def mapSet {α : Type} : List (String × α) → String → α → List (String × α)
  | [], k, v => [(k, v)]
  | (k', v') :: rest, k, v =>
    if k' = k then (k, v) :: rest else (k', v') :: mapSet rest k v

/-- JS `Map.prototype.get` (`none` = `undefined`). -/
def mapGet {α : Type} : List (String × α) → String → Option α
  | [], _ => none
  | (k', v') :: rest, k => if k' = k then some v' else mapGet rest k

/-! ## Data model (`src/domain/red-flags/types.ts`) -/

/-- `IrsRevocationRow` of `types.ts`. -/
structure IrsRevocationRow where
  ein : String
  legalName : String
  dba : String
  city : String
  state : String
  zip : String
  country : String
  exemptionType : String
  revocationDate : String
  postingDate : String
  reinstatementDate : String
  deriving DecidableEq

/-- `OfacSdnRow` of `types.ts`. -/
structure OfacSdnRow where
  entNum : String
  name : String
  sdnType : String
  program : String
  title : String
  remarks : String
  deriving DecidableEq

/-- `OfacAltRow` of `types.ts`. -/
structure OfacAltRow where
  entNum : String
  altNum : String
  altType : String
  altName : String
  altRemarks : String
  deriving DecidableEq

/-- The in-memory EIN index (`CsvDataStore.irsMap`). -/
abbrev IrsMap := List (String × IrsRevocationRow)

/-- The in-memory normalized-name index (`CsvDataStore.ofacNameMap`). -/
abbrev OfacNameMap := List (String × List OfacSdnRow)

/-! ## IRS CSV parsing (`csv-loader.ts`, `parseIrsCsv`) -/

/-- The JS `split(sep)` for a single-character separator (both separators
used by `parseIrsCsv` — `'\n'` and `'|'` — are single characters),
written as a structural recursion so that it evaluates in the kernel. -/
def splitOnChar (sep : Char) : List Char → List (List Char)
  | [] => [[]]
  | c :: cs =>
    match splitOnChar sep cs with
    | [] => [[]]
    | g :: gs => if c = sep then [] :: g :: gs else (c :: g) :: gs

/-- `String.prototype.split` with a single-character separator. -/
def jsSplit (sep : Char) (s : String) : List String :=
  (splitOnChar sep s.toList).map List.asString

/-- One iteration of the `parseIrsCsv` row loop: trim the line, skip if
empty, split on `|`, skip if fewer than 11 fields, normalize and validate
the EIN, skip silently if not exactly 9 digits, otherwise build the row
from the trimmed fields. -/
def parseIrsLine (line : String) : Option (String × IrsRevocationRow) :=
  let t := jsTrimStr line
  if t = "" then none else
  let fields := jsSplit '|' t
  if fields.length < 11 then none else
  let ein := stripDashWs (jsTrimStr (fields.getD 0 ""))
  if !isNineDigits ein then none else
  some (ein,
    { ein := ein
      legalName := jsTrimStr (fields.getD 1 "")
      dba := jsTrimStr (fields.getD 2 "")
      city := jsTrimStr (fields.getD 3 "")
      state := jsTrimStr (fields.getD 4 "")
      zip := jsTrimStr (fields.getD 5 "")
      country := jsTrimStr (fields.getD 6 "")
      exemptionType := jsTrimStr (fields.getD 7 "")
      revocationDate := jsTrimStr (fields.getD 8 "")
      postingDate := jsTrimStr (fields.getD 9 "")
      reinstatementDate := jsTrimStr (fields.getD 10 "") })

/-- `CsvDataStore.parseIrsCsv`: split the content on newlines, skip the
header line, fold the remaining lines into a fresh map. -/
def parseIrsCsv (content : String) : IrsMap :=
  ((jsSplit '\n' content).drop 1).foldl
    (fun m line =>
      match parseIrsLine line with
      | none => m
      | some (k, r) => mapSet m k r)
    []

/-! ## Store lookups (`csv-loader.ts` lines 87–95) -/

/-- `CsvDataStore.lookupEin` against a given published generation. -/
def lookupEin (m : IrsMap) (ein : String) : Option IrsRevocationRow :=
  mapGet m (stripDashWs ein)

/-- `CsvDataStore.lookupName` against a given published generation
(`|| []` turns a missing key into the empty list). -/
def lookupName (m : OfacNameMap) (name : String) : List OfacSdnRow :=
  (mapGet m (normalizeName name)).getD []

/-! ## Revocation matcher (`irs-revocation-client.ts`) -/

/-- `IrsRevocationResult` of `types.ts` (optional fields as `Option`). -/
structure IrsRevocationResult where
  found : Bool
  revoked : Bool
  detail : String
  revocationDate : Option String := none
  reinstatementDate : Option String := none
  legalName : Option String := none
  deriving DecidableEq

/-- `IrsRevocationClient.check`, a function of the store's published EIN
map and the input EIN. -/
def irsCheck (m : IrsMap) (ein : String) : IrsRevocationResult :=
  let normalized := stripDashWs ein
  if !isNineDigits normalized then
    { found := false
      revoked := false
      detail := "Invalid EIN format: expected 9 digits, got \"" ++ ein ++ "\"" }
  else
    match lookupEin m normalized with
    | none =>
      { found := false
        revoked := false
        detail := "EIN not found in IRS auto-revocation list (good — no revocation on record)" }
    | some row =>
      if row.reinstatementDate ≠ "" then
        { found := true
          revoked := false
          detail := "Was revoked on " ++ row.revocationDate ++ " but reinstated on "
            ++ row.reinstatementDate
          revocationDate := some row.revocationDate
          reinstatementDate := some row.reinstatementDate
          legalName := some row.legalName }
      else
        { found := true
          revoked := true
          detail := "Tax-exempt status REVOKED on " ++ row.revocationDate
            ++ " — failed to file Form 990 for 3 consecutive years"
          revocationDate := some row.revocationDate
          legalName := some row.legalName }

/-! ## OFAC name map and sanctions matcher -/

/-- `CsvDataStore.buildOfacNameMap` (`csv-loader.ts` lines 361–397): index
each SDN row under its normalized primary name (empty keys skipped), then
join each alias against the entity-number index and insert the *primary*
row under the normalized alias name, skipping aliases with no matching
entity, empty normalized names, and entity numbers already present under
the key. Split into the two named loop bodies `ofacPrimaryStep` (lines
369–379) and `ofacAliasStep`, folded by `buildOfacNameMap`. -/
def ofacPrimaryStep (m : OfacNameMap) (r : OfacSdnRow) : OfacNameMap :=
  let normalized := normalizeName r.name
  if normalized ≠ "" then
    mapSet m normalized (((mapGet m normalized).getD []) ++ [r])
  else m

/-- Body of the alias loop of `buildOfacNameMap` (lines 382–394). -/
def ofacAliasStep (sdnByEntNum : List (String × OfacSdnRow)) (m : OfacNameMap)
    (alt : OfacAltRow) : OfacNameMap :=
  match mapGet sdnByEntNum alt.entNum with
  | none => m
  | some sdnRow =>
    let normalized := normalizeName alt.altName
    if normalized ≠ "" then
      let existing := (mapGet m normalized).getD []
      let existing' :=
        if existing.any (fun r => r.entNum = sdnRow.entNum) then existing
        else existing ++ [sdnRow]
      mapSet m normalized existing'
    else m

def buildOfacNameMap (sdnRows : List OfacSdnRow) (altRows : List OfacAltRow) :
    OfacNameMap :=
  let sdnByEntNum : List (String × OfacSdnRow) :=
    sdnRows.foldl (fun t r => mapSet t r.entNum r) []
  altRows.foldl (ofacAliasStep sdnByEntNum) (sdnRows.foldl ofacPrimaryStep [])

/-- `OfacMatch` of `types.ts`. -/
structure OfacMatch where
  entNum : String
  name : String
  sdnType : String
  program : String
  matchedOn : String
  deriving DecidableEq

/-- `OfacSanctionsResult` of `types.ts`. -/
structure OfacSanctionsResult where
  found : Bool
  detail : String
  /-- The `matches` field of the source (renamed: `matches` is reserved in Lean). -/
  sdnMatches : List OfacMatch
  deriving DecidableEq

/-- `OfacSdnClient.check`, a function of the store's published name map
and the query name. -/
def ofacCheck (m : OfacNameMap) (name : String) : OfacSanctionsResult :=
  let rows := lookupName m name
  if rows.length = 0 then
    { found := false
      detail := "No OFAC SDN matches found (good — not on sanctions list)"
      sdnMatches := [] }
  else
    let normalized := normalizeName name
    let ms := rows.map (fun row =>
      ({ entNum := row.entNum
         name := row.name
         sdnType := row.sdnType
         program := row.program
         matchedOn :=
           if normalized = normalizeName row.name then "primary" else "alias" }
       : OfacMatch))
    let n := ms.length
    { found := true
      detail := "OFAC SDN MATCH — " ++ toString n
        ++ " sanctioned entity/entities found matching \"" ++ name ++ "\""
      sdnMatches := ms }

/-! ## Flag aggregation and recommendation (`scoring.ts`) -/

/-- `RedFlagSeverity` of `types.ts`. -/
inductive Severity | CRITICAL | HIGH | MEDIUM
  deriving DecidableEq

/-- `RedFlagSource` of `types.ts`. -/
inductive FlagSource | irs_revocation | ofac_sanctions | court_records
  deriving DecidableEq

/-- `Recommendation` of `types.ts`. -/
inductive Recommendation | CLEAN | FLAG | BLOCK
  deriving DecidableEq

set_option linter.dupNamespace false in
/-- `RedFlag` of `types.ts` (`flagType` models the `type` field). -/
structure RedFlag where
  severity : Severity
  source : FlagSource
  flagType : String
  detail : String
  deriving DecidableEq

/-- `CourtListenerCase` of `types.ts`. -/
structure CourtListenerCase where
  id : Nat
  caseName : String
  court : String
  dateArgued : Option String
  dateFiled : Option String
  docketNumber : String
  absoluteUrl : String
  deriving DecidableEq

/-- `CourtRecordsResult` of `types.ts`. -/
structure CourtRecordsResult where
  found : Bool
  detail : String
  caseCount : Nat
  cases : List CourtListenerCase
  deriving DecidableEq

/-- `aggregateFlags` of `scoring.ts`: one CRITICAL flag if `irs.revoked`,
one CRITICAL flag if `ofac.found`, and one litigation flag if
`court.found` whose severity is HIGH when `caseCount ≥ 3` and MEDIUM
otherwise, appended in that order. -/
def aggregateFlags (irs : IrsRevocationResult) (ofac : OfacSanctionsResult)
    (court : CourtRecordsResult) : List RedFlag :=
  (if irs.revoked then
    [{ severity := .CRITICAL, source := .irs_revocation,
       flagType := "tax_exempt_status_revoked", detail := irs.detail }]
   else []) ++
  (if ofac.found then
    [{ severity := .CRITICAL, source := .ofac_sanctions,
       flagType := "sanctions_list_match", detail := ofac.detail }]
   else []) ++
  (if court.found then
    [{ severity := if court.caseCount ≥ 3 then .HIGH else .MEDIUM,
       source := .court_records,
       flagType := "federal_court_cases", detail := court.detail }]
   else [])

/-- `getRecommendation` of `scoring.ts`. -/
def getRecommendation (flags : List RedFlag) : Recommendation :=
  if flags.any (fun f => f.severity = .CRITICAL) then .BLOCK
  else if flags.length > 0 then .FLAG
  else .CLEAN

/-! ## Summary formatter (`messages.ts`) -/

/-- `RedFlagSummary` of `types.ts`. -/
structure RedFlagSummary where
  headline : String
  sources_checked : Nat
  flags_found : Nat
  recommendation : Recommendation
  deriving DecidableEq

/-- The `HEADLINES` lookup table of `messages.ts`. -/
def headlineFor : Recommendation → String
  | .CLEAN => "No Red Flags Detected"
  | .FLAG => "Red Flags Found — Manual Review Required"
  | .BLOCK => "CRITICAL Red Flags — Do Not Proceed"

/-- `generateSummary` of `messages.ts`. -/
def generateSummary (flags : List RedFlag) (recommendation : Recommendation)
    (sourcesChecked : Nat) : RedFlagSummary :=
  { headline := headlineFor recommendation
    sources_checked := sourcesChecked
    flags_found := flags.length
    recommendation := recommendation }

/-! ## Store state machine (`CsvDataStore`, guarded variant)

The asynchronous network download (axios + ZIP extraction, an external
effect) is an oracle parameter; the data directory is explicit state.
Manifest entries carry the persisted row counts (timestamps omitted —
they never feed back into the logic verified here). -/

/-- Row-count floor for the IRS dataset (`MIN_IRS_ROWS`). -/
def MIN_IRS_ROWS : Nat := 400000

/-- Entry-count floor for the OFAC map (`MIN_OFAC_ENTRIES`). -/
def MIN_OFAC_ENTRIES : Nat := 4000

/-- Cooldown between refresh calls in milliseconds (`REFRESH_COOLDOWN_MS`). -/
def REFRESH_COOLDOWN_MS : Nat := 60000

/-- Outcome of the IRS download + ZIP extraction, as an oracle:
`netFail` — the axios GET rejects (timeout, network error, byte ceiling);
nothing is written to disk. `zipFail` — the GET succeeded and the ZIP was
written, but extraction failed (empty archive or a zip-bomb guard
tripped); the csv cache file is not touched. `ok content` — download and
extraction succeeded within the guards, `content` is the extracted CSV
text. -/
inductive IrsDownload
  | netFail
  | zipFail
  | ok (content : String)
  deriving DecidableEq

/-- The IRS-side state touched by `downloadAndParseIrs` /
`parseIrsFromDisk`: the published generation, the on-disk csv cache
(`none` = file absent) and the persisted manifest row count. -/
structure IrsState where
  irsMap : IrsMap
  csvFile : Option String
  manifest : Option Nat
  deriving DecidableEq

/-- `CsvDataStore.downloadAndParseIrs` (guarded variant, lines 97–168).
Mirrors the source order: on a successful download the extracted content
is written to the csv cache file *before* the new generation is parsed
and checked against `MIN_IRS_ROWS`; any failure (network, extraction, or
the row-count floor) lands in the catch block, which falls back to
parsing the csv cache if that file exists (`parseIrsFromDisk`, lines
170–186, which publishes whatever it parses, warning only when small) and
rethrows otherwise. Returns the new state and whether the call completed
without throwing. -/
def downloadAndParseIrs (dl : IrsDownload) (st : IrsState) : IrsState × Bool :=
  let fallback : IrsState → IrsState × Bool := fun s =>
    match s.csvFile with
    | some cached => ({ s with irsMap := parseIrsCsv cached }, true)
    | none => (s, false)
  match dl with
  | .netFail => fallback st
  | .zipFail => fallback st
  | .ok content =>
    let st1 := { st with csvFile := some content }
    let newMap := parseIrsCsv content
    if newMap.length < MIN_IRS_ROWS then
      fallback st1
    else
      ({ st1 with irsMap := newMap, manifest := some newMap.length }, true)

/-- The values held by the published reference `this.irsMap` at each
`await` boundary of `downloadAndParseIrs` — the only points where a
concurrently scheduled reader can run in the single-threaded event loop.
Successful-download path: the awaits at lines 103 (axios), 110 (write
zip), 113 (open zip), 127 (extract), 136 (write csv) all precede the
parse, floor check and the single assignment `this.irsMap = newMap`
(line 148), after which line 154 (save manifest) awaits once more.
Failure paths end in `parseIrsFromDisk`, whose read at line 179 precedes
its single assignment at line 184. `this.irsMap` is assigned complete,
locally built maps only — never mutated in place. -/
def irsRefreshTrace (dl : IrsDownload) (st : IrsState) : List IrsMap :=
  let final := (downloadAndParseIrs dl st).1.irsMap
  match dl with
  | .netFail => [st.irsMap, st.irsMap, final]
  | .zipFail => [st.irsMap, st.irsMap, st.irsMap, final]
  | .ok _ => [st.irsMap, st.irsMap, st.irsMap, st.irsMap, st.irsMap, final]

/-- Outcome of the two parallel OFAC downloads, as an oracle. The external
`csv-parse` library is abstracted with it: `ok` carries the parsed record
rows of `sdn.csv` and `alt.csv` (ragged column counts allowed). -/
inductive OfacDownload
  | netFail
  | ok (sdnRecords altRecords : List (List String))
  deriving DecidableEq

/-- The record-filtering loop of `parseSdnCsv`: records with fewer than 6
fields are skipped, fields are trimmed. -/
def sdnRowsOfRecords (records : List (List String)) : List OfacSdnRow :=
  records.filterMap (fun record =>
    if record.length < 6 then none else
    some { entNum := jsTrimStr (record.getD 0 "")
           name := jsTrimStr (record.getD 1 "")
           sdnType := jsTrimStr (record.getD 2 "")
           program := jsTrimStr (record.getD 3 "")
           title := jsTrimStr (record.getD 4 "")
           remarks := jsTrimStr (record.getD 5 "") })

/-- The record-filtering loop of `parseAltCsv`: records with fewer than 5
fields are skipped, fields are trimmed. -/
def altRowsOfRecords (records : List (List String)) : List OfacAltRow :=
  records.filterMap (fun record =>
    if record.length < 5 then none else
    some { entNum := jsTrimStr (record.getD 0 "")
           altNum := jsTrimStr (record.getD 1 "")
           altType := jsTrimStr (record.getD 2 "")
           altName := jsTrimStr (record.getD 3 "")
           altRemarks := jsTrimStr (record.getD 4 "") })

/-- The OFAC-side state: published name map, the two cache files (stored
as parsed records, matching the `OfacDownload` abstraction of
`csv-parse`), and the manifest counts. -/
structure OfacState where
  ofacNameMap : OfacNameMap
  sdnFile : Option (List (List String))
  altFile : Option (List (List String))
  manifest : Option (Nat × Nat)
  deriving DecidableEq

/-- `CsvDataStore.downloadAndParseOfac` (guarded variant, lines 225–284):
on success both cache files are written before the new map is built and
checked against `MIN_OFAC_ENTRIES`; failures fall back to
`parseOfacFromDisk` when both cache files exist and rethrow otherwise. -/
def downloadAndParseOfac (dl : OfacDownload) (st : OfacState) : OfacState × Bool :=
  let fallback : OfacState → OfacState × Bool := fun s =>
    match s.sdnFile, s.altFile with
    | some sdnRecs, some altRecs =>
      ({ s with ofacNameMap :=
          buildOfacNameMap (sdnRowsOfRecords sdnRecs) (altRowsOfRecords altRecs) },
       true)
    | _, _ => (s, false)
  match dl with
  | .netFail => fallback st
  | .ok sdnRecs altRecs =>
    let st1 := { st with sdnFile := some sdnRecs, altFile := some altRecs }
    let sdnRows := sdnRowsOfRecords sdnRecs
    let altRows := altRowsOfRecords altRecs
    let newMap := buildOfacNameMap sdnRows altRows
    if newMap.length < MIN_OFAC_ENTRIES then
      fallback st1
    else
      ({ st1 with ofacNameMap := newMap,
                  manifest := some (sdnRows.length, altRows.length) },
       true)

/-- The values held by `this.ofacNameMap` at each `await` boundary of
`downloadAndParseOfac` (awaits: the two parallel GETs at lines 231–244,
the two cache writes at 246–249, the manifest save at 271; in the
fallback, the two reads of `parseOfacFromDisk` at 296–299). The single
assignments are at lines 264 and 307. -/
def ofacRefreshTrace (dl : OfacDownload) (st : OfacState) : List OfacNameMap :=
  let final := (downloadAndParseOfac dl st).1.ofacNameMap
  match dl with
  | .netFail => [st.ofacNameMap, st.ofacNameMap, final]
  | .ok _ _ => [st.ofacNameMap, st.ofacNameMap, st.ofacNameMap, final]

/-- `refresh` target (`'irs' | 'ofac' | 'all'`; `none` = argument omitted,
defaulted to `'all'`). -/
inductive RefreshTarget | irs | ofac | all
  deriving DecidableEq

/-- Whole-store state for `refresh`. -/
structure StoreState where
  irs : IrsState
  ofac : OfacState
  lastRefreshAt : Nat
  deriving DecidableEq

/-- The cooldown error message built at lines 71–72
(`waitSec = Math.ceil((REFRESH_COOLDOWN_MS - elapsed) / 1000)`). -/
def cooldownMsg (remainingMs : Nat) : String :=
  "Refresh cooldown: try again in " ++ toString ((remainingMs + 999) / 1000) ++ "s"

/-- `CsvDataStore.refresh` (guarded variant, lines 67–85). `now` is the
value of `Date.now()` for this call (the model re-uses it for the
`lastRefreshAt` update at line 83). Returns the new store state, the
result (`Except.error` models a thrown error), and the number of network
requests attempted (1 per IRS download attempt, 2 per OFAC download
attempt — used to state the no-I/O property). Inside the cooldown the
function throws before `loadManifest`, so it performs no disk or network
I/O and changes nothing. A download failure with no usable cache
propagates as an error and skips the `lastRefreshAt` update. -/
def refresh (now : Nat) (dlIrs : IrsDownload) (dlOfac : OfacDownload)
    (source : Option RefreshTarget) (st : StoreState) :
    StoreState × Except String (Bool × Bool) × Nat :=
  let elapsed := now - st.lastRefreshAt
  if elapsed < REFRESH_COOLDOWN_MS then
    (st, .error (cooldownMsg (REFRESH_COOLDOWN_MS - elapsed)), 0)
  else
    let target := source.getD .all
    let refreshIrs := target = .irs || target = .all
    let refreshOfac := target = .ofac || target = .all
    let irsRes :=
      if refreshIrs then downloadAndParseIrs dlIrs st.irs else (st.irs, true)
    let irsCalls := if refreshIrs then 1 else 0
    if irsRes.2 = false then
      ({ st with irs := irsRes.1 },
       .error "Cannot load IRS revocation data", irsCalls)
    else
      let ofacRes :=
        if refreshOfac then downloadAndParseOfac dlOfac st.ofac
        else (st.ofac, true)
      let ofacCalls := if refreshOfac then 2 else 0
      if ofacRes.2 = false then
        ({ st with irs := irsRes.1, ofac := ofacRes.1 },
         .error "Cannot load OFAC data", irsCalls + ofacCalls)
      else
        ({ irs := irsRes.1, ofac := ofacRes.1, lastRefreshAt := now },
         .ok (refreshIrs, refreshOfac), irsCalls + ofacCalls)

/-! ## Request orchestrator (`tools.ts`, `checkRedFlags`) -/

/-- `RedFlagChecks` of `types.ts`. -/
structure RedFlagChecks where
  irs_revocation : IrsRevocationResult
  ofac_sanctions : OfacSanctionsResult
  court_records : CourtRecordsResult
  deriving DecidableEq

/-- `RedFlagReport` of `types.ts`. -/
structure RedFlagReport where
  ein : String
  name : String
  checks : RedFlagChecks
  flags : List RedFlag
  clean : Bool
  summary : RedFlagSummary
  deriving DecidableEq

/-- `ToolResponse<T>` of `types.ts`: `ok` models
`{success: true, data}`, `err` models `{success: false, error}` (the
constant attribution string is omitted). -/
inductive ToolResponse (α : Type)
  | ok (data : α)
  | err (error : String)
  deriving DecidableEq

/-- `CheckRedFlagsInput` of `types.ts` (`none` = field absent). -/
structure CheckRedFlagsInput where
  ein : Option String
  name : Option String

/-- `MAX_NAME_LENGTH` of `tools.ts`. -/
def MAX_NAME_LENGTH : Nat := 500

/-- `MAX_EIN_LENGTH` of `tools.ts`. -/
def MAX_EIN_LENGTH : Nat := 20

/-- `checkRedFlags` of `tools.ts` (lines 31–89). The store is given by
its two published generations; `courtClient` is `none` when no
CourtListener client is configured (yielding the fixed not-configured
result of lines 58–64) and otherwise carries the collaborator's response
as an oracle (a search that throws is not modelled: it produces
`success: false`, which the properties below condition away). -/
def checkRedFlags (irsMap : IrsMap) (ofacMap : OfacNameMap)
    (courtClient : Option CourtRecordsResult) (input : CheckRedFlagsInput) :
    ToolResponse RedFlagReport :=
  let ein := (input.ein.map jsTrimStr).getD ""
  let name := (input.name.map jsTrimStr).getD ""
  if ein = "" || name = "" then
    .err "Both ein and name are required"
  else if ein.length > MAX_EIN_LENGTH then
    .err ("EIN too long (max " ++ toString MAX_EIN_LENGTH ++ " characters)")
  else if name.length > MAX_NAME_LENGTH then
    .err ("Name too long (max " ++ toString MAX_NAME_LENGTH ++ " characters)")
  else
    let irsResult := irsCheck irsMap ein
    let ofacResult := ofacCheck ofacMap name
    let courtResult := courtClient.getD
      { found := false
        detail := "Court record checks not configured (no CourtListener API token)"
        caseCount := 0
        cases := [] }
    let flags := aggregateFlags irsResult ofacResult courtResult
    let recommendation := getRecommendation flags
    let summary := generateSummary flags recommendation 3
    .ok { ein := ein
          name := name
          checks := { irs_revocation := irsResult
                      ofac_sanctions := ofacResult
                      court_records := courtResult }
          flags := flags
          clean := flags.length = 0
          summary := summary }

/-! ## Basic lemmas about the modelled JS `Map` and string helpers -/

theorem toList_asString (l : List Char) : (List.asString l).toList = l := rfl

theorem mapGet_mapSet {α : Type} (m : List (String × α)) (k k' : String) (v : α) :
    mapGet (mapSet m k v) k' = if k' = k then some v else mapGet m k' := by
  induction m with
  | nil =>
    by_cases h : k' = k
    · subst h; simp [mapSet, mapGet]
    · have h' : ¬k = k' := fun e => h e.symm
      simp [mapSet, mapGet, h, h']
  | cons hd tl ih =>
    obtain ⟨k₀, v₀⟩ := hd
    by_cases h₀ : k₀ = k
    · subst h₀
      by_cases h : k' = k₀
      · subst h; simp [mapSet, mapGet]
      · have h' : ¬k₀ = k' := fun e => h e.symm
        simp [mapSet, mapGet, h, h']
    · by_cases h : k' = k₀
      · subst h
        simp [mapSet, mapGet, h₀]
      · have h' : ¬k₀ = k' := fun e => h e.symm
        simp [mapSet, mapGet, h₀, h, h', ih]

theorem stripDashWs_idem (s : String) :
    stripDashWs (stripDashWs s) = stripDashWs s := by
  unfold stripDashWs
  rw [toList_asString, List.filter_filter]
  congr 1
  apply List.filter_congr
  intro c _
  cases h : (!(c = '-' || isJsWs c)) <;> simp [h]

/-! ## C4 — litigation flag classification in `aggregateFlags` -/

/-- The litigation flags among an aggregated flag list. -/
def litigationFlags (flags : List RedFlag) : List RedFlag :=
  flags.filter (fun f => f.source = .court_records)

/-- A clean revocation result (no flag contributed). -/
def cleanIrsRes : IrsRevocationResult :=
  { found := false, revoked := false, detail := "d" }

/-- A clean sanctions result (no flag contributed). -/
def cleanOfacRes : OfacSanctionsResult :=
  { found := false, detail := "d", sdnMatches := [] }

/-- C4 (counterexample): the claim says a litigation result with
`caseCount ≥ 1` produces exactly one litigation flag regardless of the
other fields, but `aggregateFlags` keys the flag on `court.found`: a
result with `found = false` and `caseCount = 1` produces no flag. -/
theorem C4_counterexample :
    ¬ (litigationFlags (aggregateFlags cleanIrsRes cleanOfacRes
        { found := false, detail := "d", caseCount := 1, cases := [] })).length = 1 := by
  decide

/-- C4 (amended): for every litigation result, `found = true` produces
exactly one litigation flag — severity HIGH if `caseCount ≥ 3`, MEDIUM
otherwise — and `found = false` produces none, regardless of the other
fields and of the revocation/sanctions results. -/
theorem C4_litigation_flag (irs : IrsRevocationResult)
    (ofac : OfacSanctionsResult) (court : CourtRecordsResult) :
    (court.found = true →
      litigationFlags (aggregateFlags irs ofac court) =
        [{ severity := if court.caseCount ≥ 3 then .HIGH else .MEDIUM,
           source := .court_records,
           flagType := "federal_court_cases",
           detail := court.detail }]) ∧
    (court.found = false →
      litigationFlags (aggregateFlags irs ofac court) = []) := by
  constructor <;> intro h <;>
    cases hi : irs.revoked <;> cases ho : ofac.found <;>
      simp [aggregateFlags, litigationFlags, h, hi, ho]

/-- Witness for `C4_litigation_flag` at concrete inputs: 5 cases pending
yields one HIGH litigation flag; a not-found litigation result yields
none. -/
theorem C4_witness :
    litigationFlags (aggregateFlags cleanIrsRes cleanOfacRes
        { found := true, detail := "d", caseCount := 5, cases := [] }) =
      [{ severity := .HIGH, source := .court_records,
         flagType := "federal_court_cases", detail := "d" }] ∧
    litigationFlags (aggregateFlags cleanIrsRes cleanOfacRes
        { found := false, detail := "d", caseCount := 0, cases := [] }) = [] := by
  constructor
  · have h := (C4_litigation_flag cleanIrsRes cleanOfacRes
      { found := true, detail := "d", caseCount := 5, cases := [] }).1 rfl
    simpa using h
  · exact (C4_litigation_flag cleanIrsRes cleanOfacRes
      { found := false, detail := "d", caseCount := 0, cases := [] }).2 rfl

/-! ## C5 — 4-way classification in `IrsRevocationClient.check` -/

/-- C5: the revocation matcher's 4-way classification. A malformed EIN
(not exactly 9 digits after stripping dashes/whitespace) yields
`found = false, revoked = false` with the invalid-format detail and a
result independent of the store; a well-formed EIN with no row yields
`found = false, revoked = false`; a row with empty `reinstatementDate`
yields `found = true, revoked = true`; a row with non-empty
`reinstatementDate` yields `found = true, revoked = false`. -/
theorem C5_revocation_classification (m : IrsMap) (ein : String) :
    (isNineDigits (stripDashWs ein) = false →
      irsCheck m ein =
        { found := false, revoked := false,
          detail := "Invalid EIN format: expected 9 digits, got \"" ++ ein ++ "\"" } ∧
      ∀ m' : IrsMap, irsCheck m' ein = irsCheck m ein) ∧
    (isNineDigits (stripDashWs ein) = true →
      (mapGet m (stripDashWs ein) = none →
        irsCheck m ein =
          { found := false, revoked := false,
            detail := "EIN not found in IRS auto-revocation list (good — no revocation on record)" }) ∧
      (∀ row : IrsRevocationRow, mapGet m (stripDashWs ein) = some row →
        (row.reinstatementDate = "" →
          irsCheck m ein =
            { found := true, revoked := true,
              detail := "Tax-exempt status REVOKED on " ++ row.revocationDate
                ++ " — failed to file Form 990 for 3 consecutive years",
              revocationDate := some row.revocationDate,
              legalName := some row.legalName }) ∧
        (row.reinstatementDate ≠ "" →
          irsCheck m ein =
            { found := true, revoked := false,
              detail := "Was revoked on " ++ row.revocationDate
                ++ " but reinstated on " ++ row.reinstatementDate,
              revocationDate := some row.revocationDate,
              reinstatementDate := some row.reinstatementDate,
              legalName := some row.legalName }))) := by
  have hlk : lookupEin m (stripDashWs ein) = mapGet m (stripDashWs ein) := by
    unfold lookupEin
    rw [stripDashWs_idem]
  constructor
  · intro h
    refine ⟨?_, ?_⟩
    · simp [irsCheck, h]
    · intro m'
      simp [irsCheck, h]
  · intro h
    constructor
    · intro hnone
      simp [irsCheck, h, lookupEin, stripDashWs_idem, hnone]
    · intro row hrow
      constructor <;> intro hre <;>
        simp [irsCheck, h, lookupEin, stripDashWs_idem, hrow, hre]

/-- A concrete store for the C5 witness: one currently revoked row and
one reinstated row. -/
def C5map : IrsMap :=
  [("111223333",
    { ein := "111223333", legalName := "Rev Org", dba := "", city := "",
      state := "", zip := "", country := "", exemptionType := "",
      revocationDate := "2020-01-15", postingDate := "",
      reinstatementDate := "" }),
   ("444556666",
    { ein := "444556666", legalName := "Back Org", dba := "", city := "",
      state := "", zip := "", country := "", exemptionType := "",
      revocationDate := "2019-05-15", postingDate := "",
      reinstatementDate := "2021-06-01" })]

/-- Witness for `C5_revocation_classification`: all four outcomes at
concrete inputs (malformed `12-34`, absent `999887777`, revoked
`11-1223333`, reinstated `44-4556666`). -/
theorem C5_witness :
    ((irsCheck C5map "12-34").found = false ∧ (irsCheck C5map "12-34").revoked = false ∧
      irsCheck ([] : IrsMap) "12-34" = irsCheck C5map "12-34") ∧
    ((irsCheck C5map "999887777").found = false ∧ (irsCheck C5map "999887777").revoked = false) ∧
    ((irsCheck C5map "11-1223333").found = true ∧ (irsCheck C5map "11-1223333").revoked = true) ∧
    ((irsCheck C5map "44-4556666").found = true ∧ (irsCheck C5map "44-4556666").revoked = false) := by
  have h1 := (C5_revocation_classification C5map "12-34").1 (by decide)
  have h2 := ((C5_revocation_classification C5map "999887777").2 (by decide)).1 (by decide)
  have h3 := (((C5_revocation_classification C5map "11-1223333").2 (by decide)).2
    { ein := "111223333", legalName := "Rev Org", dba := "", city := "",
      state := "", zip := "", country := "", exemptionType := "",
      revocationDate := "2020-01-15", postingDate := "",
      reinstatementDate := "" } (by decide)).1 rfl
  have h4 := (((C5_revocation_classification C5map "44-4556666").2 (by decide)).2
    { ein := "444556666", legalName := "Back Org", dba := "", city := "",
      state := "", zip := "", country := "", exemptionType := "",
      revocationDate := "2019-05-15", postingDate := "",
      reinstatementDate := "2021-06-01" } (by decide)).2 (by decide)
  refine ⟨⟨?_, ?_, ?_⟩, ⟨?_, ?_⟩, ⟨?_, ?_⟩, ⟨?_, ?_⟩⟩ <;>
    simp [h1.1, h1.2, h2, h3, h4]

/-! ## C6 — recommendation thresholds -/

/-- C6: `getRecommendation` is a pure function of the flag list — the
empty list yields CLEAN, a non-empty list with no CRITICAL flag yields
FLAG, and any list containing a CRITICAL flag yields BLOCK. -/
theorem C6_recommendation_thresholds (flags : List RedFlag) :
    (flags = [] → getRecommendation flags = .CLEAN) ∧
    (flags ≠ [] → (∀ f ∈ flags, f.severity ≠ .CRITICAL) →
      getRecommendation flags = .FLAG) ∧
    ((∃ f ∈ flags, f.severity = .CRITICAL) → getRecommendation flags = .BLOCK) := by
  refine ⟨?_, ?_, ?_⟩
  · rintro rfl
    rfl
  · intro hne hnc
    have hany : flags.any (fun f => f.severity = .CRITICAL) = false := by
      simp only [List.any_eq_false, decide_eq_true_eq]
      exact fun f hf => hnc f hf
    have hlen : flags.length > 0 := List.length_pos.mpr hne
    simp [getRecommendation, hany, hlen]
  · intro ⟨f, hf, hcrit⟩
    have hany : flags.any (fun g => g.severity = .CRITICAL) = true := by
      simp only [List.any_eq_true, decide_eq_true_eq]
      exact ⟨f, hf, hcrit⟩
    simp [getRecommendation, hany]

/-- A CRITICAL flag for the C6 witness. -/
def critFlag : RedFlag :=
  { severity := .CRITICAL, source := .ofac_sanctions,
    flagType := "sanctions_list_match", detail := "d" }

/-- A MEDIUM flag for the C6 witness. -/
def medFlag : RedFlag :=
  { severity := .MEDIUM, source := .court_records,
    flagType := "federal_court_cases", detail := "d" }

/-- Witness for `C6_recommendation_thresholds`: all three thresholds at
concrete flag lists. -/
theorem C6_witness :
    getRecommendation [] = .CLEAN ∧
    getRecommendation [medFlag] = .FLAG ∧
    getRecommendation [medFlag, critFlag] = .BLOCK := by
  refine ⟨(C6_recommendation_thresholds []).1 rfl, ?_, ?_⟩
  · exact (C6_recommendation_thresholds [medFlag]).2.1 (by decide) (by decide)
  · exact (C6_recommendation_thresholds [medFlag, critFlag]).2.2
      ⟨critFlag, by decide, rfl⟩

/-! ## C9 — internal consistency of a successful `checkRedFlags` report -/

theorem getRecommendation_eq_clean_iff (flags : List RedFlag) :
    getRecommendation flags = .CLEAN ↔ flags = [] := by
  constructor
  · intro h
    by_cases h1 : flags.any (fun f => f.severity = .CRITICAL)
    · simp [getRecommendation, h1] at h
    · by_cases h2 : flags.length > 0
      · simp only [getRecommendation, h1, Bool.false_eq_true, if_false, h2,
          if_true] at h
        exact absurd h (by simp)
      · exact List.length_eq_zero.mp (by omega)
  · rintro rfl
    rfl

/-- C9: every successful `checkRedFlags` report is internally
consistent — `clean` holds exactly when `flags` is empty, which holds
exactly when the summary recommendation is CLEAN, and
`summary.flags_found` equals the number of flags. -/
theorem C9_report_consistency (im : IrsMap) (om : OfacNameMap)
    (cc : Option CourtRecordsResult) (inp : CheckRedFlagsInput)
    (r : RedFlagReport) (h : checkRedFlags im om cc inp = .ok r) :
    (r.clean = true ↔ r.flags = []) ∧
    (r.clean = true ↔ r.summary.recommendation = .CLEAN) ∧
    r.summary.flags_found = r.flags.length := by
  unfold checkRedFlags at h
  dsimp only at h
  split_ifs at h
  injection h with h
  subst h
  dsimp [generateSummary]
  refine ⟨?_, ?_, rfl⟩
  · simp [List.length_eq_zero]
  · rw [getRecommendation_eq_clean_iff]
    simp [List.length_eq_zero]

/-- Input for the C9 witness. -/
def C9input : CheckRedFlagsInput := ⟨some "12-3456789", some "Helping Hands"⟩

/-- The report produced by `checkRedFlags` on empty generations, no
court client, and the C9 witness input. -/
def C9report : RedFlagReport :=
  { ein := "12-3456789"
    name := "Helping Hands"
    checks :=
      { irs_revocation :=
          { found := false, revoked := false,
            detail := "EIN not found in IRS auto-revocation list (good — no revocation on record)" }
        ofac_sanctions :=
          { found := false,
            detail := "No OFAC SDN matches found (good — not on sanctions list)",
            sdnMatches := [] }
        court_records :=
          { found := false,
            detail := "Court record checks not configured (no CourtListener API token)",
            caseCount := 0, cases := [] } }
    flags := []
    clean := true
    summary :=
      { headline := "No Red Flags Detected", sources_checked := 3,
        flags_found := 0, recommendation := .CLEAN } }

/-- Witness for `C9_report_consistency`: the consistency facts at a
concrete successful call. -/
theorem C9_witness :
    (C9report.clean = true ↔ C9report.flags = []) ∧
    (C9report.clean = true ↔ C9report.summary.recommendation = .CLEAN) ∧
    C9report.summary.flags_found = C9report.flags.length :=
  C9_report_consistency [] [] none C9input C9report rfl

/-! ## C10 — names normalizing to the empty string never match -/

theorem buildOfacNameMap_empty_key (sdnRows : List OfacSdnRow)
    (altRows : List OfacAltRow) :
    mapGet (buildOfacNameMap sdnRows altRows) "" = none := by
  have hprim : ∀ (rows : List OfacSdnRow) (m : OfacNameMap),
      mapGet m "" = none → mapGet (rows.foldl ofacPrimaryStep m) "" = none := by
    intro rows
    induction rows with
    | nil => exact fun m hm => hm
    | cons r rest ih =>
      intro m hm
      simp only [List.foldl_cons]
      apply ih
      unfold ofacPrimaryStep
      by_cases h : normalizeName r.name = ""
      · simp [h, hm]
      · simp only [h, ne_eq, not_false_iff, if_true]
        rw [mapGet_mapSet, if_neg (fun e => h e.symm)]
        exact hm
  have halias : ∀ (alts : List OfacAltRow) (idx : List (String × OfacSdnRow))
      (m : OfacNameMap),
      mapGet m "" = none →
      mapGet (alts.foldl (ofacAliasStep idx) m) "" = none := by
    intro alts idx
    induction alts with
    | nil => exact fun m hm => hm
    | cons alt rest ih =>
      intro m hm
      simp only [List.foldl_cons]
      apply ih
      unfold ofacAliasStep
      cases hidx : mapGet idx alt.entNum with
      | none => exact hm
      | some sdnRow =>
        by_cases h : normalizeName alt.altName = ""
        · simp [h, hm]
        · simp only [h, ne_eq, not_false_iff, if_true]
          rw [mapGet_mapSet, if_neg (fun e => h e.symm)]
          exact hm
  unfold buildOfacNameMap
  exact halias _ _ _ (hprim _ _ rfl)

/-- C10: for every store built by `buildOfacNameMap` and every query name
whose normalized form is the empty string, the sanctions matcher returns
`found = false` with an empty match list — the name map never contains an
entry under the empty key, because such entries are skipped at build
time. -/
theorem C10_empty_normalized_name (sdnRows : List OfacSdnRow)
    (altRows : List OfacAltRow) (name : String)
    (h : normalizeName name = "") :
    ofacCheck (buildOfacNameMap sdnRows altRows) name =
      { found := false,
        detail := "No OFAC SDN matches found (good — not on sanctions list)",
        sdnMatches := [] } := by
  unfold ofacCheck lookupName
  rw [h, buildOfacNameMap_empty_key]
  rfl

/-- A one-entry SDN list for the C10 witness. -/
def C10sdn : List OfacSdnRow :=
  [{ entNum := "1", name := "abc", sdnType := "-0-", program := "PROG",
     title := "", remarks := "" }]

/-- Witness for `C10_empty_normalized_name`: a punctuation-only name
against a non-empty store. -/
theorem C10_witness :
    normalizeName "$$$" = "" ∧
    ofacCheck (buildOfacNameMap C10sdn []) "$$$" =
      { found := false,
        detail := "No OFAC SDN matches found (good — not on sanctions list)",
        sdnMatches := [] } :=
  ⟨rfl, C10_empty_normalized_name C10sdn [] "$$$" rfl⟩

/-! ## C8 — no duplicate entity numbers under a normalized key -/

/-- A duplicated primary SDN row for the C8 counterexample. -/
def C8dupRow : OfacSdnRow :=
  { entNum := "123", name := "abc", sdnType := "", program := "",
    title := "", remarks := "" }

/-- C8 (counterexample): the claim quantifies over every pair of input
lists, but the primary-name pass of `buildOfacNameMap` has no
entity-number dedup check (only the alias pass does): feeding the same
primary row twice stores its entity number twice under the key. -/
theorem C8_counterexample :
    ¬ ((((mapGet (buildOfacNameMap [C8dupRow, C8dupRow] []) "abc").getD []).map
        OfacSdnRow.entNum).Nodup) := by
  decide

/-- The invariant carried through the primary-row fold: every stored list
has pairwise-distinct entity numbers, all drawn from the already-seen
entity numbers. -/
theorem ofacPrimaryFold_nodup :
    ∀ (rows : List OfacSdnRow) (m : OfacNameMap) (seen : List String),
      (∀ k l, mapGet m k = some l →
        (l.map OfacSdnRow.entNum).Nodup ∧ ∀ r ∈ l, r.entNum ∈ seen) →
      (seen ++ rows.map OfacSdnRow.entNum).Nodup →
      ∀ k l, mapGet (rows.foldl ofacPrimaryStep m) k = some l →
        (l.map OfacSdnRow.entNum).Nodup ∧
        ∀ r ∈ l, r.entNum ∈ seen ++ rows.map OfacSdnRow.entNum := by
  intro rows
  induction rows with
  | nil =>
    intro m seen hinv _ k l hget
    simpa using hinv k l hget
  | cons r rest ih =>
    intro m seen hinv hnd k l hget
    have hassoc : seen ++ (r :: rest).map OfacSdnRow.entNum
        = (seen ++ [r.entNum]) ++ rest.map OfacSdnRow.entNum := by
      simp
    rw [hassoc]
    rw [hassoc] at hnd
    simp only [List.foldl_cons] at hget
    refine ih (ofacPrimaryStep m r) (seen ++ [r.entNum]) ?_ hnd k l hget
    -- the invariant survives one primary-row step
    intro k' l' hget'
    have hrseen : r.entNum ∉ seen := by
      have hnd1 : (seen ++ [r.entNum]).Nodup := (List.nodup_append.mp hnd).1
      have hdisj := (List.nodup_append.mp hnd1).2.2
      intro hmem
      exact hdisj hmem (by simp)
    unfold ofacPrimaryStep at hget'
    by_cases hnn : normalizeName r.name = ""
    · simp only [hnn, ne_eq, not_true_eq_false, if_false] at hget'
      obtain ⟨h1, h2⟩ := hinv k' l' hget'
      exact ⟨h1, fun x hx => List.mem_append_left _ (h2 x hx)⟩
    · simp only [hnn, ne_eq, not_false_iff, if_true] at hget'
      rw [mapGet_mapSet] at hget'
      by_cases hk : k' = normalizeName r.name
      · rw [if_pos hk] at hget'
        injection hget' with hget'
        subst hget'
        cases hold : mapGet m (normalizeName r.name) with
        | none =>
          simp [hold]
        | some old =>
          obtain ⟨h1, h2⟩ := hinv _ _ hold
          have hnotin : r.entNum ∉ old.map OfacSdnRow.entNum := by
            intro hmem
            obtain ⟨x, hx, hxe⟩ := List.mem_map.mp hmem
            exact hrseen (hxe ▸ h2 x hx)
          constructor
          · simp only [hold, Option.getD_some, List.map_append, List.map_cons,
              List.map_nil]
            exact List.Nodup.append h1 (List.nodup_singleton _)
              (fun a ha hb => hnotin (by simpa [List.mem_singleton.mp hb] using ha))
          · intro x hx
            have hx2 : x ∈ old ∨ x = r := by simpa [hold] using hx
            rcases hx2 with hx' | hx'
            · exact List.mem_append_left _ (h2 x hx')
            · subst hx'
              exact List.mem_append_right _ (by simp)
      · rw [if_neg hk] at hget'
        obtain ⟨h1, h2⟩ := hinv k' l' hget'
        exact ⟨h1, fun x hx => List.mem_append_left _ (h2 x hx)⟩

/-- The nodup property survives the alias fold unconditionally, thanks to
the explicit dedup check in `ofacAliasStep`. -/
theorem ofacAliasFold_nodup :
    ∀ (alts : List OfacAltRow) (idx : List (String × OfacSdnRow))
      (m : OfacNameMap),
      (∀ k l, mapGet m k = some l → (l.map OfacSdnRow.entNum).Nodup) →
      ∀ k l, mapGet (alts.foldl (ofacAliasStep idx) m) k = some l →
        (l.map OfacSdnRow.entNum).Nodup := by
  intro alts idx
  induction alts with
  | nil => exact fun m hinv k l hget => hinv k l hget
  | cons alt rest ih =>
    intro m hinv
    simp only [List.foldl_cons]
    refine ih (ofacAliasStep idx m alt) ?_
    intro k l hget
    unfold ofacAliasStep at hget
    cases hidx : mapGet idx alt.entNum with
    | none =>
      rw [hidx] at hget
      exact hinv k l hget
    | some sdnRow =>
      rw [hidx] at hget
      by_cases hnn : normalizeName alt.altName = ""
      · simp only [hnn, ne_eq, not_true_eq_false, if_false] at hget
        exact hinv k l hget
      · simp only [hnn, ne_eq, not_false_iff, if_true] at hget
        rw [mapGet_mapSet] at hget
        by_cases hk : k = normalizeName alt.altName
        · rw [if_pos hk] at hget
          injection hget with hget
          subst hget
          have hexist : ((mapGet m (normalizeName alt.altName)).getD []).map
              OfacSdnRow.entNum |>.Nodup := by
            cases hold : mapGet m (normalizeName alt.altName) with
            | none => simp [hold]
            | some old => simpa [hold] using hinv _ _ hold
          by_cases hdup : ((mapGet m (normalizeName alt.altName)).getD []).any
              (fun r => r.entNum = sdnRow.entNum)
          · simpa [hdup] using hexist
          · simp only [hdup, Bool.false_eq_true, if_false, List.map_append,
              List.map_cons, List.map_nil]
            refine List.Nodup.append hexist (List.nodup_singleton _) ?_
            intro a ha hb
            rw [List.mem_singleton.mp hb] at ha
            obtain ⟨x, hx, hxe⟩ := List.mem_map.mp ha
            have hnot : ∀ x ∈ (mapGet m (normalizeName alt.altName)).getD [],
                ¬x.entNum = sdnRow.entNum := by simpa using hdup
            exact hnot x hx hxe
        · rw [if_neg hk] at hget
          exact hinv k l hget

/-- C8 (amended): whenever the primary SDN rows carry pairwise-distinct
entity numbers (true of the real dataset, where the entity number is the
primary key), no sequence stored under any normalized key of
`buildOfacNameMap` contains two rows with the same entity number. In
general the claim fails: the primary-name pass performs no dedup check
(`C8_counterexample`). -/
theorem C8_no_duplicate_entnum (sdnRows : List OfacSdnRow)
    (altRows : List OfacAltRow)
    (h : (sdnRows.map OfacSdnRow.entNum).Nodup) :
    ∀ k l, mapGet (buildOfacNameMap sdnRows altRows) k = some l →
      (l.map OfacSdnRow.entNum).Nodup := by
  unfold buildOfacNameMap
  refine ofacAliasFold_nodup altRows _ _ ?_
  intro k l hget
  exact (ofacPrimaryFold_nodup sdnRows [] [] (by simp [mapGet])
    (by simpa using h) k l hget).1

/-- Two distinct-entity rows sharing a normalized name, plus an alias of
the first pointing at the same name, for the C8 witness. -/
def C8sdnA : OfacSdnRow :=
  { entNum := "1", name := "abc", sdnType := "", program := "", title := "",
    remarks := "" }

/-- Second row for the C8 witness. -/
def C8sdnB : OfacSdnRow :=
  { entNum := "2", name := "abc inc", sdnType := "", program := "",
    title := "", remarks := "" }

/-- Alias row for the C8 witness (maps entity 1 to the key `abc` again,
exercising the dedup check). -/
def C8alt : OfacAltRow :=
  { entNum := "1", altNum := "9", altType := "aka", altName := "abc corp",
    altRemarks := "" }

/-- Witness for `C8_no_duplicate_entnum` at concrete inputs. -/
theorem C8_witness :
    (([C8sdnA, C8sdnB].map OfacSdnRow.entNum).Nodup) ∧
    ((((mapGet (buildOfacNameMap [C8sdnA, C8sdnB] [C8alt]) "abc").getD
        []).map OfacSdnRow.entNum).Nodup) := by
  refine ⟨by decide, ?_⟩
  cases hget : mapGet (buildOfacNameMap [C8sdnA, C8sdnB] [C8alt]) "abc" with
  | none => simp [hget]
  | some l =>
    have := C8_no_duplicate_entnum [C8sdnA, C8sdnB] [C8alt] (by decide)
      "abc" l hget
    simpa [hget] using this

/-! ## C1 — the below-floor download guard is defeated by the early cache
write -/

/-- The previously published row for the C1 evaluation. -/
def C1row : IrsRevocationRow :=
  { ein := "111223333", legalName := "Old Org", dba := "", city := "",
    state := "", zip := "", country := "", exemptionType := "",
    revocationDate := "2020-01-01", postingDate := "", reinstatementDate := "" }

/-- Prior store state for the C1 evaluation: a published generation and a
good disk cache. -/
def C1state : IrsState :=
  { irsMap := [("111223333", C1row)], csvFile := some "good-cache",
    manifest := some 600000 }

/-- C1 (code bug): a downloaded revocation payload that parses to 0 rows
(far below `MIN_IRS_ROWS`) is *not* rejected in effect. Because line 136
writes the extracted content to the csv cache before the row-count
validation of line 141, the catch block's fallback (`parseIrsFromDisk`)
re-reads the just-written corrupt payload and publishes its below-floor
generation: the previously active generation is lost and the prior disk
cache is destroyed. -/
theorem C1_guard_defeated :
    downloadAndParseIrs (.ok "HEADER") C1state =
      ({ irsMap := [], csvFile := some "HEADER", manifest := some 600000 },
       true) ∧
    (parseIrsCsv "HEADER").length < MIN_IRS_ROWS ∧
    (downloadAndParseIrs (.ok "HEADER") C1state).1.irsMap ≠ C1state.irsMap := by
  refine ⟨by decide, by decide, by decide⟩

/-! ## C2 — readers see a complete generation, never a mix -/

/-- C2: during any modelled refresh of either dataset, the published
reference observed at every `await` boundary equals either the complete
pre-refresh generation or the complete post-refresh generation — the
partially built scratch map is never published, so a lookup (which reads
the published reference exactly once) returns rows of a single complete
generation. -/
theorem C2_atomic_publication :
    (∀ (dl : IrsDownload) (st : IrsState),
      ∀ g ∈ irsRefreshTrace dl st,
        g = st.irsMap ∨ g = (downloadAndParseIrs dl st).1.irsMap) ∧
    (∀ (dl : OfacDownload) (st : OfacState),
      ∀ g ∈ ofacRefreshTrace dl st,
        g = st.ofacNameMap ∨ g = (downloadAndParseOfac dl st).1.ofacNameMap) := by
  constructor
  · intro dl st g hg
    cases dl <;> simp only [irsRefreshTrace, List.mem_cons,
      List.not_mem_nil, or_false] at hg <;> tauto
  · intro dl st g hg
    cases dl <;> simp only [ofacRefreshTrace, List.mem_cons,
      List.not_mem_nil, or_false] at hg <;> tauto

/-- Witness for `C2_atomic_publication`: a concrete trace element of a
concrete refresh. -/
theorem C2_witness :
    ([] : IrsMap) = IrsState.irsMap ⟨[], none, none⟩ ∨
    ([] : IrsMap) = (downloadAndParseIrs .netFail ⟨[], none, none⟩).1.irsMap :=
  C2_atomic_publication.1 .netFail ⟨[], none, none⟩ [] (by decide)

/-! ## C7 — refresh cooldown -/

/-- C7 (amended): for every refresh invocation made less than 60 seconds
after a *successful* refresh, the second invocation fails with the
`try again in Ns` cooldown error, changes no state (published
generations, caches, manifest, timestamp) and performs no I/O. -/
theorem C7_cooldown (st : StoreState) (now₁ : Nat) (dlI : IrsDownload)
    (dlO : OfacDownload) (tgt : Option RefreshTarget) (st₁ : StoreState)
    (ok₁ : Bool × Bool) (io₁ : Nat)
    (h : refresh now₁ dlI dlO tgt st = (st₁, .ok ok₁, io₁))
    (now₂ : Nat) (dlI₂ : IrsDownload) (dlO₂ : OfacDownload)
    (tgt₂ : Option RefreshTarget)
    (hlt : now₂ - now₁ < REFRESH_COOLDOWN_MS) :
    refresh now₂ dlI₂ dlO₂ tgt₂ st₁ =
      (st₁, .error (cooldownMsg (REFRESH_COOLDOWN_MS - (now₂ - now₁))), 0) := by
  have hlast : st₁.lastRefreshAt = now₁ := by
    unfold refresh at h
    dsimp only at h
    split_ifs at h
    all_goals first
      | exact Except.noConfusion (congrArg (fun t => t.2.1) h)
      | (have h2 := congrArg (fun t => t.1.lastRefreshAt) h
         simp only at h2
         omega)
  unfold refresh
  dsimp only
  rw [hlast, if_pos hlt]

/-- Store state for the C7 witness: empty generations but a usable IRS
disk cache, so a refresh succeeds via the fallback path. -/
def C7stW : StoreState :=
  { irs := { irsMap := [], csvFile := some "x", manifest := none }
    ofac := { ofacNameMap := [], sdnFile := none, altFile := none,
              manifest := none }
    lastRefreshAt := 0 }

/-- The state after the successful first refresh of the C7 witness. -/
def C7stW1 : StoreState :=
  { irs := { irsMap := [], csvFile := some "x", manifest := none }
    ofac := { ofacNameMap := [], sdnFile := none, altFile := none,
              manifest := none }
    lastRefreshAt := 100000 }

/-- Witness for `C7_cooldown`: a successful refresh at t=100000ms,
followed by a refresh at t=130000ms, which is rejected with
`try again in 30s` and does nothing. -/
theorem C7_witness :
    refresh 130000 .netFail .netFail none C7stW1 =
      (C7stW1, .error (cooldownMsg (REFRESH_COOLDOWN_MS - (130000 - 100000))), 0) :=
  C7_cooldown C7stW 100000 .netFail .netFail (some .irs) C7stW1 (true, false) 1
    rfl 130000 .netFail .netFail none (by decide)

/-- Store state for the C7 counterexample: nothing cached, so the first
refresh fails. -/
def C7stBad : StoreState :=
  { irs := { irsMap := [], csvFile := none, manifest := none }
    ofac := { ofacNameMap := [], sdnFile := none, altFile := none,
              manifest := none }
    lastRefreshAt := 0 }

/-- C7 (counterexample): the claim quantifies over *every* pair of
refresh invocations less than 60s apart, but the cooldown timestamp is
only armed by a successful refresh (line 83 is skipped when the download
throws). After a failed refresh at t=1000000ms, a second refresh only
30s later still attempts a network download (1 request, not 0) instead of
failing with the cooldown error. -/
theorem C7_counterexample :
    ¬ ((refresh 1030000 .netFail .netFail (some .irs)
        (refresh 1000000 .netFail .netFail (some .irs) C7stBad).1).2.2 = 0) := by
  decide

/-! ## C3 — idempotence of `normalizeName`

The normalized output always consists of lowercase ASCII alphanumerics
and single interior spaces (established below), on which the NFD,
lowercase, punctuation-filter, collapse and trim stages are all the
identity. The two remaining stages are *not* always stable on normalized
output — a normalized form can itself start with `the ` (the prefix strip
removes only one occurrence) or end in a suffix token (the 10-iteration
cap, or a trailing-whitespace input that hid the suffix from the
end-anchored pattern) — which is exactly where idempotence fails. -/

/-- Characters of a fully normalized string: lowercase ASCII letters,
digits, or the single space. -/
def isCanonChar (c : Char) : Bool := isLowerAlpha c || isDigitChar c || c = ' '

/-- Adjacent characters are never both whitespace. -/
def wsOk (a b : Char) : Prop := ¬(isJsWs a = true ∧ isJsWs b = true)

theorem canon_toNat {c : Char} (h : isCanonChar c = true) :
    (97 ≤ c.toNat ∧ c.toNat ≤ 122) ∨ (48 ≤ c.toNat ∧ c.toNat ≤ 57) ∨
    c.toNat = 32 := by
  simp only [isCanonChar, isLowerAlpha, isDigitChar, Bool.or_eq_true,
    Bool.and_eq_true, decide_eq_true_eq] at h
  rcases h with (h | h) | h
  · exact Or.inl h
  · exact Or.inr (Or.inl h)
  · subst h
    exact Or.inr (Or.inr rfl)

theorem ws_toNat {c : Char} (h : isJsWs c = true) :
    c.toNat = 9 ∨ c.toNat = 10 ∨ c.toNat = 11 ∨ c.toNat = 12 ∨
    c.toNat = 13 ∨ c.toNat = 32 ∨ c.toNat = 160 ∨ c.toNat = 0x1680 ∨
    (0x2000 ≤ c.toNat ∧ c.toNat ≤ 0x200a) ∨ c.toNat = 0x2028 ∨
    c.toNat = 0x2029 ∨ c.toNat = 0x202f ∨ c.toNat = 0x205f ∨
    c.toNat = 0x3000 ∨ c.toNat = 0xfeff := by
  simp only [isJsWs, Bool.or_eq_true, Bool.and_eq_true,
    decide_eq_true_eq] at h
  tauto

theorem canon_ws_eq_space {c : Char} (hc : isCanonChar c = true)
    (hw : isJsWs c = true) : c = ' ' := by
  simp only [isCanonChar, isLowerAlpha, isDigitChar, Bool.or_eq_true,
    Bool.and_eq_true, decide_eq_true_eq] at hc
  rcases hc with (h | h) | h
  · rcases ws_toNat hw with h' | h' | h' | h' | h' | h' | h' | h' | h' | h' |
      h' | h' | h' | h' | h' <;> omega
  · rcases ws_toNat hw with h' | h' | h' | h' | h' | h' | h' | h' | h' | h' |
      h' | h' | h' | h' | h' <;> omega
  · exact h

theorem canon_isKept {c : Char} (h : isCanonChar c = true) :
    isKept c = true := by
  simp only [isCanonChar, Bool.or_eq_true, decide_eq_true_eq] at h
  rcases h with (h | h) | h
  · simp [isKept, h]
  · simp [isKept, h]
  · subst h
    decide

theorem kept_not_ws_canon {c : Char} (h : isKept c = true)
    (hw : isJsWs c = false) : isCanonChar c = true := by
  simp only [isKept, Bool.or_eq_true] at h
  rcases h with (h | h) | h
  · simp [isCanonChar, h]
  · simp [isCanonChar, h]
  · rw [h] at hw
    exact Bool.noConfusion hw

theorem canon_toLower {c : Char} (h : isCanonChar c = true) :
    jsToLower c = c := by
  have := canon_toNat h
  unfold jsToLower
  rw [if_neg]
  simp only [Bool.and_eq_true, decide_eq_true_eq, not_and]
  omega

theorem canon_nfdChar {c : Char} (h : isCanonChar c = true) :
    nfdChar c = [c] := by
  have := canon_toNat h
  unfold nfdChar
  rw [if_pos]
  omega

theorem canon_not_combining {c : Char} (h : isCanonChar c = true) :
    isCombining c = false := by
  have := canon_toNat h
  simp only [isCombining, Bool.and_eq_true, decide_eq_true_eq,
    Bool.and_eq_false_iff, decide_eq_false_iff_not]
  omega

/-! Membership preservation through the stripping stages. -/

theorem mem_stripLeadingThe {l : List Char} {x : Char}
    (h : x ∈ stripLeadingThe l) : x ∈ l := by
  unfold stripLeadingThe at h
  split at h
  · split at h
    · rename_i c rest _
      have hs : (c :: rest).dropWhile isJsWs <:+ c :: rest :=
        List.dropWhile_suffix _
      have hx : x ∈ c :: rest := List.Sublist.mem h hs.sublist
      exact List.mem_cons_of_mem _ (List.mem_cons_of_mem _
        (List.mem_cons_of_mem _ hx))
    · exact h
  · exact h

theorem mem_stripGo :
    ∀ (rest acc : List Char) (x : Char), x ∈ stripGo acc rest →
      x ∈ acc ∨ x ∈ rest := by
  intro rest
  induction rest with
  | nil =>
    intro acc x h
    rw [stripGo] at h
    exact Or.inl (List.mem_reverse.mp h)
  | cons c cs ih =>
    intro acc x h
    rw [stripGo] at h
    split at h
    · exact Or.inl (List.mem_reverse.mp h)
    · rcases ih (c :: acc) x h with h' | h'
      · rcases List.mem_cons.mp h' with h'' | h''
        · exact Or.inr (h'' ▸ List.mem_cons_self _ _)
        · exact Or.inl h''
      · exact Or.inr (List.mem_cons_of_mem _ h')

theorem mem_stripSuffixOnce {l : List Char} {x : Char}
    (h : x ∈ stripSuffixOnce l) : x ∈ l := by
  rcases mem_stripGo l [] x h with h' | h'
  · exact absurd h' (List.not_mem_nil x)
  · exact h'

theorem mem_stripSuffixN :
    ∀ (n : Nat) (l : List Char) (x : Char), x ∈ stripSuffixN n l → x ∈ l := by
  intro n
  induction n with
  | zero => exact fun l x h => h
  | succ n ih =>
    intro l x h
    simp only [stripSuffixN] at h
    split at h
    · exact h
    · exact mem_stripSuffixOnce (ih _ x h)

/-! Shape of the collapse/trim output. -/

theorem collapse_canon :
    ∀ l : List Char, (∀ c ∈ l, isKept c = true) →
      ∀ x ∈ collapseWs l, isCanonChar x = true
  | [] => by simp [collapseWs]
  | [c] => by
    intro hl x hx
    by_cases h : isJsWs c
    · simp only [collapseWs, if_pos h, List.mem_singleton] at hx
      subst hx
      decide
    · simp only [collapseWs, if_neg h, List.mem_singleton] at hx
      subst hx
      exact kept_not_ws_canon (hl x (List.mem_singleton_self x))
        (by simpa using h)
  | a :: b :: rest => by
    intro hl x hx
    have hlt : ∀ c ∈ b :: rest, isKept c = true :=
      fun c hc => hl c (List.mem_cons_of_mem _ hc)
    by_cases h : isJsWs a && isJsWs b
    · rw [collapseWs, if_pos h] at hx
      exact collapse_canon (b :: rest) hlt x hx
    · rw [collapseWs, if_neg h] at hx
      rcases List.mem_cons.mp hx with hx' | hx'
      · subst hx'
        by_cases ha : isJsWs a
        · simp only [ha, if_true]
          decide
        · simp only [ha, if_false]
          exact kept_not_ws_canon (hl a (List.mem_cons_self _ _))
            (by simpa using ha)
      · exact collapse_canon (b :: rest) hlt x hx'

theorem collapse_head :
    ∀ (b : Char) (rest : List Char),
      (collapseWs (b :: rest)).head? = some (if isJsWs b then ' ' else b)
  | b, [] => by
    by_cases h : isJsWs b <;> simp [collapseWs, h]
  | b, r :: rs => by
    by_cases h : isJsWs b && isJsWs r
    · rw [collapseWs, if_pos h, collapse_head r rs]
      obtain ⟨hb, hr⟩ : isJsWs b = true ∧ isJsWs r = true := by simpa using h
      rw [if_pos hb, if_pos hr]
    · rw [collapseWs, if_neg h]
      rfl

theorem collapse_chain :
    ∀ l : List Char, List.Chain' wsOk (collapseWs l)
  | [] => by simp [collapseWs]
  | [c] => by
    by_cases h : isJsWs c <;>
      simp [collapseWs, h, List.chain'_singleton]
  | a :: b :: rest => by
    by_cases h : isJsWs a && isJsWs b
    · rw [collapseWs, if_pos h]
      exact collapse_chain (b :: rest)
    · rw [collapseWs, if_neg h]
      rw [List.chain'_cons']
      refine ⟨?_, collapse_chain (b :: rest)⟩
      intro y hy
      rw [collapse_head b rest] at hy
      have hy' : (if isJsWs b then ' ' else b) = y := by simpa using hy
      subst hy'
      have hnab : ¬(isJsWs a = true ∧ isJsWs b = true) := by
        simpa using h
      intro hcon
      by_cases ha : isJsWs a
      · by_cases hb : isJsWs b
        · exact hnab ⟨ha, hb⟩
        · rw [if_neg hb] at hcon
          exact hb hcon.2
      · rw [if_neg ha] at hcon
        exact ha hcon.1

theorem jsTrim_eq_rdrop (l : List Char) :
    jsTrim l = List.rdropWhile isJsWs (List.dropWhile isJsWs l) := rfl

theorem mem_jsTrim {l : List Char} {x : Char} (h : x ∈ jsTrim l) : x ∈ l := by
  rw [jsTrim_eq_rdrop] at h
  have hpre := List.rdropWhile_prefix isJsWs (List.dropWhile isJsWs l)
  have h1 : x ∈ List.dropWhile isJsWs l := List.Sublist.mem h hpre.sublist
  exact List.Sublist.mem h1 (List.dropWhile_suffix isJsWs).sublist

theorem chain_jsTrim {l : List Char} (h : List.Chain' wsOk l) :
    List.Chain' wsOk (jsTrim l) := by
  rw [jsTrim_eq_rdrop]
  have hpre := List.rdropWhile_prefix isJsWs (List.dropWhile isJsWs l)
  exact List.Chain'.prefix (h.suffix (List.dropWhile_suffix isJsWs)) hpre

theorem jsTrim_head_not_ws (l : List Char) :
    ∀ c, (jsTrim l).head? = some c → isJsWs c = false := by
  intro c hc
  have hne : jsTrim l ≠ [] := by
    intro h
    rw [h] at hc
    exact Option.noConfusion hc
  obtain ⟨t, ht⟩ := List.rdropWhile_prefix isJsWs (l.dropWhile isJsWs)
  have hAne : l.dropWhile isJsWs ≠ [] := by
    rw [← ht]
    intro hcon
    exact hne (List.append_eq_nil.mp hcon).1
  have hhead : (l.dropWhile isJsWs).head? = some c := by
    rw [← ht, List.head?_append]
    rw [jsTrim_eq_rdrop] at hc
    rw [hc]
    rfl
  have hval : (l.dropWhile isJsWs).head hAne = c := by
    rw [List.head?_eq_head hAne] at hhead
    exact Option.some.inj hhead
  have := List.head_dropWhile_not isJsWs l hAne
  rwa [hval] at this

theorem jsTrim_last_not_ws (l : List Char) :
    ∀ c, (jsTrim l).getLast? = some c → isJsWs c = false := by
  intro c hc
  have hne : jsTrim l ≠ [] := by
    intro h
    rw [h] at hc
    exact Option.noConfusion hc
  rw [jsTrim_eq_rdrop] at hc hne
  have hval : (List.rdropWhile isJsWs (l.dropWhile isJsWs)).getLast hne = c := by
    rw [List.getLast?_eq_getLast _ hne] at hc
    exact Option.some.inj hc
  have := List.rdropWhile_last_not isJsWs (l.dropWhile isJsWs) hne
  rw [hval] at this
  simpa using this

/-! The early pipeline stages are the identity on canonical strings. -/

theorem nfdMap_id :
    ∀ l : List Char, (∀ c ∈ l, isCanonChar c = true) → nfdMap l = l := by
  intro l
  induction l with
  | nil => intro _; rfl
  | cons c cs ih =>
    intro h
    rw [nfdMap, canon_nfdChar (h c (List.mem_cons_self _ _)),
      ih (fun x hx => h x (List.mem_cons_of_mem _ hx))]
    rfl

theorem filter_combining_id (l : List Char)
    (h : ∀ c ∈ l, isCanonChar c = true) :
    l.filter (fun c => !isCombining c) = l := by
  rw [List.filter_eq_self]
  intro c hc
  rw [canon_not_combining (h c hc)]
  rfl

theorem map_lower_id :
    ∀ l : List Char, (∀ c ∈ l, isCanonChar c = true) →
      l.map jsToLower = l := by
  intro l
  induction l with
  | nil => intro _; rfl
  | cons c cs ih =>
    intro h
    rw [List.map_cons, canon_toLower (h c (List.mem_cons_self _ _)),
      ih (fun x hx => h x (List.mem_cons_of_mem _ hx))]

theorem filter_kept_id (l : List Char)
    (h : ∀ c ∈ l, isCanonChar c = true) : l.filter isKept = l := by
  rw [List.filter_eq_self]
  exact fun c hc => canon_isKept (h c hc)

theorem collapse_id :
    ∀ l : List Char, (∀ c ∈ l, isCanonChar c = true) →
      List.Chain' wsOk l → collapseWs l = l
  | [] => by intro _ _; rfl
  | [c] => by
    intro hcanon _
    by_cases h : isJsWs c
    · rw [collapseWs, if_pos h,
        canon_ws_eq_space (hcanon c (List.mem_singleton_self c)) h]
    · rw [collapseWs, if_neg h]
  | a :: b :: rest => by
    intro hcanon hchain
    obtain ⟨hab, htail⟩ := List.chain'_cons.mp hchain
    have hnand : (isJsWs a && isJsWs b) = false := by
      cases ha : isJsWs a
      · rfl
      · cases hb : isJsWs b
        · simp
        · exact absurd ⟨ha, hb⟩ hab
    rw [collapseWs, if_neg (by simp [hnand])]
    have htl := collapse_id (b :: rest)
      (fun x hx => hcanon x (List.mem_cons_of_mem _ hx)) htail
    rw [htl]
    by_cases ha : isJsWs a
    · rw [if_pos ha,
        canon_ws_eq_space (hcanon a (List.mem_cons_self _ _)) ha]
    · rw [if_neg ha]

theorem dropWhile_id_of_head (l : List Char)
    (h : ∀ c, l.head? = some c → isJsWs c = false) :
    l.dropWhile isJsWs = l := by
  cases l with
  | nil => rfl
  | cons c cs =>
    have := h c rfl
    simp [List.dropWhile, this]

theorem jsTrim_id (l : List Char)
    (hhead : ∀ c, l.head? = some c → isJsWs c = false)
    (hlast : ∀ c, l.getLast? = some c → isJsWs c = false) :
    jsTrim l = l := by
  unfold jsTrim
  rw [dropWhile_id_of_head l hhead]
  rw [dropWhile_id_of_head l.reverse
    (fun c hc => hlast c ((List.head?_reverse l) ▸ hc))]
  exact List.reverse_reverse l

/-! The canonical-shape bundle for normalizer output, and identity of the
whole pipeline on stable canonical strings. -/

theorem normalizeChars_canonical (input : List Char) :
    (∀ c ∈ normalizeChars input, isCanonChar c = true) ∧
    List.Chain' wsOk (normalizeChars input) ∧
    (∀ c, (normalizeChars input).head? = some c → isJsWs c = false) ∧
    (∀ c, (normalizeChars input).getLast? = some c → isJsWs c = false) := by
  have hkept : ∀ c ∈ stripSuffixN 10 (stripLeadingThe
      ((((nfdMap input).filter (fun c => !isCombining c)).map
        jsToLower).filter isKept)), isKept c = true := by
    intro c hc
    exact List.mem_filter.mp
      (mem_stripLeadingThe (mem_stripSuffixN 10 _ c hc)) |>.2
  refine ⟨?_, ?_, ?_, ?_⟩
  · intro c hc
    exact collapse_canon _ hkept c (mem_jsTrim hc)
  · exact chain_jsTrim (collapse_chain _)
  · exact jsTrim_head_not_ws _
  · exact jsTrim_last_not_ws _

theorem normalizeChars_id_of_canonical (m : List Char)
    (hcanon : ∀ c ∈ m, isCanonChar c = true)
    (hchain : List.Chain' wsOk m)
    (hhead : ∀ c, m.head? = some c → isJsWs c = false)
    (hlast : ∀ c, m.getLast? = some c → isJsWs c = false)
    (h1 : stripLeadingThe m = m) (h2 : stripSuffixOnce m = m) :
    normalizeChars m = m := by
  unfold normalizeChars
  dsimp only
  rw [nfdMap_id m hcanon, filter_combining_id m hcanon,
    map_lower_id m hcanon, filter_kept_id m hcanon, h1]
  rw [show stripSuffixN 10 m = m by simp [stripSuffixN, h2]]
  rw [collapse_id m hcanon hchain]
  exact jsTrim_id m hhead hlast

/-- C3 (counterexample): `normalizeName` is not idempotent. The prefix
strip removes only one leading `the ` token, so
`normalizeName "the the x" = "the x"`, while normalizing again gives
`"x"`. -/
theorem C3_counterexample :
    normalizeName (normalizeName "the the x") ≠ normalizeName "the the x" := by
  decide

/-- C3 (amended): `normalizeName` is idempotent on every string whose
normalized form is itself stable under the leading-`the` strip and under
one application of the trailing-suffix strip. (These are the only two
pipeline stages that can move on normalized output; in general
idempotence fails — `C3_counterexample`.) -/
theorem C3_idempotent_on_stable (s : String)
    (h1 : stripLeadingThe (normalizeChars s.toList) = normalizeChars s.toList)
    (h2 : stripSuffixOnce (normalizeChars s.toList) = normalizeChars s.toList) :
    normalizeName (normalizeName s) = normalizeName s := by
  unfold normalizeName
  rw [toList_asString]
  obtain ⟨hcanon, hchain, hhead, hlast⟩ := normalizeChars_canonical s.toList
  rw [normalizeChars_id_of_canonical _ hcanon hchain hhead hlast h1 h2]

/-- Witness for `C3_idempotent_on_stable` at `s = "Acme Corp Inc"`
(normalized form `acme`). -/
theorem C3_witness :
    stripLeadingThe (normalizeChars "Acme Corp Inc".toList) =
      normalizeChars "Acme Corp Inc".toList ∧
    stripSuffixOnce (normalizeChars "Acme Corp Inc".toList) =
      normalizeChars "Acme Corp Inc".toList ∧
    normalizeName (normalizeName "Acme Corp Inc") = normalizeName "Acme Corp Inc" :=
  ⟨by decide, by decide,
   C3_idempotent_on_stable "Acme Corp Inc" (by decide) (by decide)⟩

end RedFlag
